import Mathlib

/-!
# Verification of the smartapi-mcp merge / routing core

Shallow embedding of the `smartapi_mcp` Python package:

* `server.py` — `merge_mcp_servers`, `get_merged_mcp_server`,
  `get_smart_mcp_server_with_routing`;
* `router.py` — `load_tools_batch` (router and progressive variants),
  `_build_api_descriptions`, `_ensure_semantic_index`, `_category_routing`,
  `smart_search_smartapi`;
* `smartapi.py` — `SmartAPIRegistry.search_apis`.

Python dicts are embedded as insertion-ordered association lists with
overwrite-on-existing-key semantics (`dictInsert`).  Python strings are
Lean `String`s; `str.lower()` is modelled for the ASCII range (`pyLower`),
which agrees with CPython on every input character relevant to the
properties proved here.  Raising an exception is modelled with `Except`.
-/

deriving instance DecidableEq for Except

namespace SmartapiMcp

/-! ## Characters and the namespace-prefix sanitization

`server.py` line 57-59:
`api_name = re.sub(r"[^a-z0-9_-]", "_", getattr(server, "name", "unknown_api").lower())`.
-/

/-- ASCII model of Python `str.lower()` applied to one character: the
upper-case letters `A`..`Z` (code points 65..90) are shifted down by 32,
everything else is unchanged. -/
def pyLower (c : Char) : Char :=
  if 65 ≤ c.toNat ∧ c.toNat ≤ 90 then Char.ofNat (c.toNat + 32) else c

/-- Character class of the regex `[a-z0-9_-]` used in `merge_mcp_servers`. -/
def allowedChar (c : Char) : Bool :=
  decide (97 ≤ c.toNat ∧ c.toNat ≤ 122) || decide (48 ≤ c.toNat ∧ c.toNat ≤ 57) ||
    decide (c.toNat = 95) || decide (c.toNat = 45)

/-- One character of `re.sub(r"[^a-z0-9_-]", "_", s.lower())`: lower the
character, keep it when it is in the class, otherwise replace it by `_`. -/
def sanitizeChar (c : Char) : Char :=
  let lc := pyLower c
  if allowedChar lc then lc else '_'

/-- The namespace-prefix sanitization of `merge_mcp_servers`
(`server.py` lines 57-59), applied characterwise. -/
def sanitizeName (s : String) : String :=
  ⟨s.data.map sanitizeChar⟩

/-- ASCII model of Python `str.lower()` on a whole string. -/
def pyLowerStr (s : String) : String :=
  ⟨s.data.map pyLower⟩

/-! ## Data model: tools, prompts, servers, Python dicts -/

/-- A FastMCP tool: a mutable `name` attribute plus the rest of the tool
(modelled by an opaque description), as used by `merge_mcp_servers`. -/
structure Tool where
  name : String
  desc : String
deriving DecidableEq, Repr

/-- A FastMCP prompt, analogous to `Tool`. -/
structure Prompt where
  name : String
  desc : String
deriving DecidableEq, Repr

/-- Insertion into a Python dict modelled as an association list: an
existing key keeps its position and gets the new value, a new key is
appended at the end. -/
def dictInsert {α : Type} : List (String × α) → String → α → List (String × α)
  | [], k, v => [(k, v)]
  | (k', v') :: rest, k, v =>
      if k' = k then (k, v) :: rest else (k', v') :: dictInsert rest k v

/-- A FastMCP server instance: its `name` attribute, its tools dict
(`await server.get_tools()`), and its prompts dict
(`await server.get_prompts()`). -/
structure Server where
  name : String
  tools : List (String × Tool)
  prompts : List (String × Prompt)
deriving DecidableEq, Repr

/-- The keys of a server's tools dict (the tool names it exposes). -/
def toolKeys (m : Server) : List String :=
  m.tools.map Prod.fst

/-- `FastMCP.add_tool`: register the tool under its `name` attribute
(an existing entry of the same name is overwritten, cf. §9 of the spec). -/
def addTool (m : Server) (t : Tool) : Server :=
  { m with tools := dictInsert m.tools t.name t }

/-- `FastMCP.add_prompt`, analogous to `addTool`. -/
def addPrompt (m : Server) (p : Prompt) : Server :=
  { m with prompts := dictInsert m.prompts p.name p }

/-! ## Error taxonomy

The Python code raises `ValueError` / `AttributeError` / `RuntimeError`
with distinguishing messages; we model each raise site as a constructor. -/

/-- The exceptions raised by `server.py` and `router.py`. -/
inductive SrvError where
  /-- `get_predefined_api_set`: `ValueError("Unknown API set: ...")`. -/
  | unknownApiSet (name : String)
  /-- `ValueError("No SmartAPI IDs provided or found with the given query.")`. -/
  | noIds
  /-- `merge_mcp_servers`: `AttributeError(f"Server {server} does not have accessible tools.")`. -/
  | noAccessibleTools (serverName : String)
  /-- `router.py`: `RuntimeError("Semantic search dependencies unavailable.")`. -/
  | depsUnavailable
  /-- `_ensure_semantic_index`: `ValueError("No API descriptions available for semantic search.")`. -/
  | noDescriptions
deriving DecidableEq, Repr

/-! ## The merge engine (`merge_mcp_servers`, `server.py` lines 38-85) -/

/-- The tool loop of `merge_mcp_servers`: for each `(original_name, tool)`
item of the source's tools dict, set `tool.name = f"{api_name}_{original_name}"`
and `add_tool` it to the accumulator. -/
def mergeTools (acc : Server) (pfx : String) (tools : List (String × Tool)) : Server :=
  tools.foldl (fun m kv => addTool m { kv.2 with name := pfx ++ "_" ++ kv.1 }) acc

/-- The prompt loop of `merge_mcp_servers`, same renaming scheme. -/
def mergePrompts (acc : Server) (pfx : String) (prompts : List (String × Prompt)) : Server :=
  prompts.foldl (fun m kv => addPrompt m { kv.2 with name := pfx ++ "_" ++ kv.1 }) acc

/-- One iteration of the `for server in list_of_servers` loop of
`merge_mcp_servers`: derive the sanitized namespace from the server's
name, fail when the server exposes no tools, else merge its renamed
tools and then its renamed prompts into the accumulator. -/
def mergeServer (acc s : Server) : Except SrvError Server :=
  let pfx := sanitizeName s.name
  if s.tools.isEmpty then
    .error (.noAccessibleTools s.name)
  else
    let acc1 := mergeTools acc pfx s.tools
    let acc2 := mergePrompts acc1 pfx s.prompts
    .ok acc2

/-- The loop of `merge_mcp_servers` over the input list, threading the
accumulator; the first raise aborts the whole merge. -/
def mergeList (acc : Server) : List Server → Except SrvError Server
  | [] => .ok acc
  | s :: rest =>
      match mergeServer acc s with
      | .error e => .error e
      | .ok acc2 => mergeList acc2 rest

/-- `merge_mcp_servers(list_of_servers, merged_name)` (`server.py`
lines 38-85): start from a fresh empty `FastMCP(merged_name)` and fold
the servers into it. -/
def merge_mcp_servers (servers : List Server) (mergedName : String) : Except SrvError Server :=
  mergeList { name := mergedName, tools := [], prompts := [] } servers

/-! ## Selection resolution (`get_merged_mcp_server`, `server.py` lines 88-126)

`get_predefined_api_set`, `get_smartapi_ids` and `get_mcp_server` are
collaborators of the resolution code; they are passed in as function
parameters (`lookupApiSet`, `queryIds`, `build`) so that the control flow
of `server.py` itself is embedded exactly. -/

/-- The dict returned by `get_predefined_api_set`: each field is `some v`
exactly when the corresponding key is present in the dict. -/
structure ApiSetArgs where
  smartapi_ids : Option (List String)
  smartapi_q : Option String
  smartapi_exclude_ids : Option (List String)
deriving DecidableEq, Repr

/-- Python truthiness of an optional string (`if s:`): `None` and the
empty string are falsy. -/
def truthyStr : Option String → Bool
  | none => false
  | some s => !s.isEmpty

/-- Python truthiness of an optional list (`if l:`): `None` and the
empty list are falsy. -/
def truthyList {α : Type} : Option (List α) → Bool
  | none => false
  | some l => !l.isEmpty

/-- Helper of `pyDedup` carrying the elements already emitted. -/
def dedupAux : List String → List String → List String
  | _, [] => []
  | seen, x :: xs =>
      if x ∈ seen then dedupAux seen xs else x :: dedupAux (x :: seen) xs

/-- `list(set(ids))`: deduplication with set semantics.  CPython's set
order is unspecified; first-occurrence order is used here (the claims
depend only on membership and emptiness). -/
def pyDedup (l : List String) : List String :=
  dedupAux [] l

/-- The `if api_set:` block shared by `get_merged_mcp_server` (lines
97-105) and `get_smart_mcp_server_with_routing` (lines 148-155): look the
set up, then overwrite each of `smartapi_q` / `smartapi_ids` /
`smartapi_exclude_ids` with the set's value whenever the set's dict has
the corresponding key.  Returns the triple `(q, ids, exclude_ids)` of
(possibly overwritten) locals. -/
def applyApiSet (lookupApiSet : String → Except SrvError ApiSetArgs)
    (api_set : Option String) (smartapi_q : Option String)
    (smartapi_ids smartapi_exclude_ids : Option (List String)) :
    Except SrvError (Option String × Option (List String) × Option (List String)) :=
  if truthyStr api_set then
    match lookupApiSet (api_set.getD "") with
    | .error e => .error e
    | .ok args =>
        .ok (if args.smartapi_q.isSome then args.smartapi_q else smartapi_q,
             if args.smartapi_ids.isSome then args.smartapi_ids else smartapi_ids,
             if args.smartapi_exclude_ids.isSome then args.smartapi_exclude_ids
               else smartapi_exclude_ids)
  else .ok (smartapi_q, smartapi_ids, smartapi_exclude_ids)

/-- Lines 109-112 of `server.py` (also 157-161): a truthy query replaces
the id list with the registry result, then a truthy single id replaces
everything with a singleton. -/
def resolveIds (queryIds : String → List String) (q0 smartapi_id : Option String)
    (ids0 : Option (List String)) : Option (List String) :=
  let ids1 := if truthyStr q0 then some (queryIds (q0.getD "")) else ids0
  if truthyStr smartapi_id then some [smartapi_id.getD ""] else ids1

/-- `get_merged_mcp_server` (`server.py` lines 88-126): apply the
predefined set, resolve the query / single id, deduplicate, fail when no
ids survive, apply the exclusion list, build one server per surviving id
in order, and merge them. -/
def get_merged_mcp_server (lookupApiSet : String → Except SrvError ApiSetArgs)
    (queryIds : String → List String) (build : String → Server)
    (smartapi_q smartapi_id : Option String)
    (smartapi_ids smartapi_exclude_ids : Option (List String))
    (api_set : Option String) (server_name : String) : Except SrvError Server :=
  match applyApiSet lookupApiSet api_set smartapi_q smartapi_ids smartapi_exclude_ids with
  | .error e => .error e
  | .ok (q0, ids0, excl0) =>
      let ids2 := resolveIds queryIds q0 smartapi_id ids0
      let ids3 := if truthyList ids2 then some (pyDedup (ids2.getD [])) else ids2
      if !truthyList ids3 then .error .noIds
      else
        let excl := excl0.getD []
        let servers := ((ids3.getD []).filter (fun sid => !excl.contains sid)).map build
        merge_mcp_servers servers server_name

/-! ## Adaptive loader (`get_smart_mcp_server_with_routing`,
`server.py` lines 129-195) -/

/-- The three outcomes of the adaptive loader: the router server and the
progressive server are recorded with the arguments handed to
`create_smart_router_server` / `create_progressive_server`; the full
path carries the merged server. -/
inductive RoutingOutcome where
  | router (availableIds : List String) (serverName : String) (maxTools : Nat)
  | progressive (availableIds : List String) (serverName : String) (maxTools : Nat)
  | full (merged : Server)
deriving DecidableEq, Repr

/-- `get_smart_mcp_server_with_routing` (`server.py` lines 129-195):
resolve the selection (no deduplication on this path), fail when no ids
were found, apply the exclusion list, then pick the strategy with the
hard-coded thresholds `large_api_threshold = 50` and
`medium_api_threshold = 10`. -/
def get_smart_mcp_server_with_routing (lookupApiSet : String → Except SrvError ApiSetArgs)
    (queryIds : String → List String) (build : String → Server)
    (smartapi_q smartapi_id : Option String)
    (smartapi_ids smartapi_exclude_ids : Option (List String))
    (api_set : Option String) (server_name : String)
    (smart_routing : Bool) (max_context_tools : Nat) : Except SrvError RoutingOutcome :=
  match applyApiSet lookupApiSet api_set smartapi_q smartapi_ids smartapi_exclude_ids with
  | .error e => .error e
  | .ok (q0, ids0, excl0) =>
      let ids2 := resolveIds queryIds q0 smartapi_id ids0
      if !truthyList ids2 then .error .noIds
      else
        let excl := excl0.getD []
        let available := (ids2.getD []).filter (fun sid => !excl.contains sid)
        if smart_routing && decide (50 ≤ available.length) then
          .ok (.router available server_name max_context_tools)
        else if 10 ≤ available.length then
          .ok (.progressive available server_name max_context_tools)
        else
          match get_merged_mcp_server lookupApiSet queryIds build q0 none
              (some available) (some excl) api_set server_name with
          | .error e => .error e
          | .ok m => .ok (.full m)

/-! ## Batch loading (`load_tools_batch` in `create_smart_router_server`
and `create_progressive_server`, `router.py` lines 317-340 and 362-385)

`_load_single_server` performs network I/O and may raise; it is passed
in as `build : String → Except SrvError Server`. -/

/-- The value produced by one `load_tools_batch` invocation:
`noIds` is the string `"No API IDs provided to load."`, `noneLoaded` is
`"No tools loaded."`, and `loaded n ts` is the success message
`"Loaded {n} APIs with {len(ts)} tools."` together with the merged tools
that were added to the hosting server. -/
inductive BatchReport where
  | noIds
  | noneLoaded
  | loaded (numApis : Nat) (mergedTools : List (String × Tool))
deriving DecidableEq, Repr

/-- The servers that built successfully, in batch order (the `servers`
list accumulated by the `for api_id in batch_ids` loop: a raising build
is skipped). -/
def successfulServers (build : String → Except SrvError Server)
    (batchIds : List String) : List Server :=
  batchIds.filterMap fun i => (build i).toOption

/-- The ids whose build raised, in batch order; each one is logged with
`logger.warning(f"Failed to load SmartAPI {api_id}: {exc}")`. -/
def failedIds (build : String → Except SrvError Server)
    (batchIds : List String) : List String :=
  batchIds.filter fun i => !(build i).toOption.isSome

/-- The body shared by the two `load_tools_batch` closures once the
batch ids are chosen: per-id builds with individual exception handling,
the `"No tools loaded."` early return, and the final merge (whose own
exception, if any, propagates).  The second component is the list of
ids that were logged as failed. -/
def load_batch_core (build : String → Except SrvError Server)
    (serverName : String) (batchIds : List String) :
    Except SrvError BatchReport × List String :=
  if batchIds.isEmpty then (.ok .noIds, [])
  else
    let warned := failedIds build batchIds
    let servers := successfulServers build batchIds
    if servers.isEmpty then (.ok .noneLoaded, warned)
    else
      match merge_mcp_servers servers (serverName ++ "-batch") with
      | .error e => (.error e, warned)
      | .ok m => (.ok (.loaded servers.length m.tools), warned)

/-- Batch selection of the router variant (`router.py` line 321):
`batch_ids = api_ids[:max_tools]`. -/
def routerBatchIds (maxTools : Nat) (apiIds : List String) : List String :=
  apiIds.take maxTools

/-- Batch selection of the progressive variant (`router.py` line 366):
`batch_ids = api_ids[:max_tools] if api_ids else smartapi_ids[:max_tools]`. -/
def progressiveBatchIds (maxTools : Nat) (allIds apiIds : List String) : List String :=
  if !apiIds.isEmpty then apiIds.take maxTools else allIds.take maxTools

/-- `load_tools_batch` of `create_smart_router_server`
(`router.py` lines 317-340). -/
def load_tools_batch_router (build : String → Except SrvError Server)
    (maxTools : Nat) (serverName : String) (apiIds : List String) :
    Except SrvError BatchReport × List String :=
  load_batch_core build serverName (routerBatchIds maxTools apiIds)

/-- `load_tools_batch` of `create_progressive_server`
(`router.py` lines 362-385). -/
def load_tools_batch_progressive (build : String → Except SrvError Server)
    (maxTools : Nat) (serverName : String) (allIds apiIds : List String) :
    Except SrvError BatchReport × List String :=
  load_batch_core build serverName (progressiveBatchIds maxTools allIds apiIds)

/-- Number of APIs a batch invocation reports as loaded (`0` when the
invocation returned one of the two early messages or raised). -/
def loadedCount : Except SrvError BatchReport × List String → Nat
  | (.ok (.loaded n _), _) => n
  | _ => 0

/-! ## The registry query client (`SmartAPIRegistry.search_apis`,
`smartapi.py` lines 37-63) -/

/-- A failure of the underlying `aiohttp` call: a transport error, an
HTTP error raised by `response.raise_for_status()`, or a body that does
not parse as JSON. -/
inductive HttpFailure where
  | transport (msg : String)
  | httpStatus (code : Nat)
  | badJson
deriving DecidableEq, Repr

/-- The parsed JSON body of a successful `/query` response; the entries
of its `"hits"` array are opaque here. -/
structure QueryResponse where
  hits : List String
deriving DecidableEq, Repr

/-- The error `search_apis` can actually raise:
`RuntimeError("SmartAPIRegistry must be used as async context manager")`. -/
inductive RegistryError where
  | notContextManager
deriving DecidableEq, Repr

/-- `SmartAPIRegistry.search_apis(query, limit)` (`smartapi.py` lines
37-63).  The network interaction `session.get(...)` / `raise_for_status`
/ `json()` is the parameter `network`; the `try`/`except Exception`
around it logs the error and returns `[]`. -/
def search_apis (sessionActive : Bool)
    (network : String → Nat → Except HttpFailure QueryResponse)
    (query : String) (limit : Nat) : Except RegistryError (List String) :=
  if !sessionActive then .error .notContextManager
  else
    match network query limit with
    | .ok data => .ok data.hits
    | .error _ => .ok []

/-! ## Descriptions, the semantic index and hybrid search (`router.py`) -/

/-- The `info` section of a loaded OpenAPI spec, as read by
`_build_api_descriptions` (`spec.get("info", {})` with `title`,
`summary`, `description`, each defaulting to `""`). -/
structure ApiSpecInfo where
  title : String
  summary : String
  description : String
deriving DecidableEq, Repr

/-- `" ".join(part for part in [title, summary, description] if part)`. -/
def combinedDescription (info : ApiSpecInfo) : String :=
  String.intercalate " "
    (([info.title, info.summary, info.description]).filter (fun part => !part.isEmpty))

/-- `_build_api_descriptions` (`router.py` lines 93-107): for each id,
try to load its spec (`load id = none` models `load_api_spec` raising,
which is logged and skipped), and store the combined description, or the
id itself when the combination is empty, into the descriptions dict. -/
def build_api_descriptions (load : String → Option ApiSpecInfo)
    (smartapiIds : List String) : List (String × String) :=
  smartapiIds.foldl
    (fun descriptions api_id =>
      match load api_id with
      | none => descriptions
      | some info =>
          let combined := combinedDescription info
          dictInsert descriptions api_id (if combined.isEmpty then api_id else combined))
    []

/-- `_ensure_semantic_index` (`router.py` lines 110-155).  The on-disk
cache is the parameter `cachedDescs` (the parsed `api_ids.json` /
`api_descriptions.json` pair, `none` when absent or unreadable) together
with `cachedIndexOk` (whether the faiss index file loads); the embedding
model and the faiss index itself are irrelevant to the properties proved
here, so the returned index is represented by its id list and the
descriptions dict. -/
def ensure_semantic_index (semAvailable : Bool)
    (cachedDescs : Option (List String × List (String × String)))
    (cachedIndexOk : Bool) (load : String → Option ApiSpecInfo)
    (smartapiIds : List String) :
    Except SrvError (List String × List (String × String)) :=
  if !semAvailable then .error .depsUnavailable
  else
    let rebuild :=
      let descriptions := build_api_descriptions load smartapiIds
      let ids := descriptions.map Prod.fst
      if ids.isEmpty then Except.error SrvError.noDescriptions
      else Except.ok (ids, descriptions)
    match cachedDescs with
    | some (cachedIds, cachedDescriptions) =>
        if cachedIds = smartapiIds && cachedIndexOk then .ok (cachedIds, cachedDescriptions)
        else rebuild
    | none => rebuild

/-- The fixed category table of `_category_routing`
(`router.py` lines 159-173). -/
def categoriesTable : List (String × List String) :=
  [("bioinformatics",
     ["gene", "protein", "genomic", "genome", "sequence", "variant", "mutation",
      "pathway", "bio"]),
   ("clinical", ["clinical", "patient", "phenotype", "disease", "trial"]),
   ("literature", ["literature", "publication", "paper", "abstract"])]

/-- Python's substring test `needle in hay`. -/
def strContains (hay needle : String) : Bool :=
  decide (needle.data <:+: hay.data)

/-- `defaultdict(list)` append: `results[category].append(api_id)`,
keeping dict insertion order. -/
def appendToKey : List (String × List String) → String → String → List (String × List String)
  | [], k, v => [(k, [v])]
  | (k', vs) :: rest, k, v =>
      if k' = k then (k', vs ++ [v]) :: rest else (k', vs) :: appendToKey rest k v

/-- `_category_routing(query, smartapi_ids)` (`router.py` lines 158-190):
match the query against the keyword table; with no matched category
return `{}` without loading anything; otherwise bucket each described
api id under every matched category whose keywords hit its text. -/
def category_routing (load : String → Option ApiSpecInfo) (query : String)
    (smartapiIds : List String) : List (String × List String) :=
  let queryLower := pyLowerStr query
  let matched := categoriesTable.filter fun ckw =>
    ckw.2.any fun keyword => strContains queryLower keyword
  if matched.isEmpty then []
  else
    let descriptions := build_api_descriptions load smartapiIds
    descriptions.foldl
      (fun results d =>
        matched.foldl
          (fun results ckw =>
            if ckw.2.any (fun keyword => strContains (pyLowerStr d.2) keyword) then
              appendToKey results ckw.1 d.1
            else results)
          results)
      []

/-- The `results` field of `smart_search_smartapi`'s return dict: either
semantic entries (`api_id` with its description; the float score is
dropped from the model) or the category buckets. -/
inductive SearchResults where
  | semantic (entries : List (String × String))
  | categories (entries : List (String × List String))
deriving DecidableEq, Repr

/-- The dict returned by `smart_search_smartapi`. -/
structure SearchResult where
  method : String
  results : SearchResults
  totalFound : Nat
deriving DecidableEq, Repr

/-- `descriptions.get(api_id, "")`. -/
def lookupDescription (descriptions : List (String × String)) (api_id : String) : String :=
  match descriptions.find? (fun kv => kv.1 = api_id) with
  | some kv => kv.2
  | none => ""

/-- The category-routing return value of `smart_search_smartapi`
(`router.py` lines 227-232). -/
def categoryFallback (load : String → Option ApiSpecInfo) (query : String)
    (smartapiIds : List String) : SearchResult :=
  let categoryResults := category_routing load query smartapiIds
  { method := "category_routing",
    results := .categories categoryResults,
    totalFound := (categoryResults.map (fun kv => kv.2.length)).sum }

/-- `smart_search_smartapi(query, smartapi_ids, limit)` (`router.py`
lines 193-232).  The embedding of the query and the faiss inner-product
search are the oracle `semanticRank`, which returns the ranked api ids
(out-of-range faiss indices are dropped by the `idx` bounds check, hence
the membership filter); any exception inside the `try` block — in
particular `_ensure_semantic_index` failing — is caught, logged, and
answered with category routing instead. -/
def smart_search_smartapi (semAvailable : Bool)
    (cachedDescs : Option (List String × List (String × String)))
    (cachedIndexOk : Bool) (load : String → Option ApiSpecInfo)
    (semanticRank : List String → String → Nat → List String)
    (query : String) (smartapiIds : List String) (limit : Nat) : SearchResult :=
  if semAvailable then
    match ensure_semantic_index semAvailable cachedDescs cachedIndexOk load smartapiIds with
    | .error _ => categoryFallback load query smartapiIds
    | .ok (ids, descriptions) =>
        let ranked := (semanticRank ids query limit).filter (fun api_id => ids.contains api_id)
        let results := ranked.foldl
          (fun acc api_id => dictInsert acc api_id (lookupDescription descriptions api_id)) []
        if !results.isEmpty then
          { method := "semantic_search",
            results := .semantic results,
            totalFound := results.length }
        else categoryFallback load query smartapiIds
  else categoryFallback load query smartapiIds

/-! ## Lemmas about the sanitization -/

/-- A character of the class `[a-z0-9_-]` is not an upper-case ASCII
letter, so `str.lower()` leaves it unchanged. -/
theorem pyLower_of_allowed {c : Char} (h : allowedChar c = true) : pyLower c = c := by
  simp only [allowedChar, Bool.or_eq_true, decide_eq_true_eq] at h
  unfold pyLower
  rw [if_neg (by omega)]

/-- Every character produced by the sanitization is in `[a-z0-9_-]`. -/
theorem allowedChar_sanitizeChar (c : Char) : allowedChar (sanitizeChar c) = true := by
  unfold sanitizeChar
  by_cases h : allowedChar (pyLower c) = true
  · simp [h]
  · simp [h]
    decide

/-- The characterwise sanitization is idempotent. -/
theorem sanitizeChar_idem (c : Char) : sanitizeChar (sanitizeChar c) = sanitizeChar c := by
  by_cases h : allowedChar (pyLower c) = true
  · have h2 : sanitizeChar c = pyLower c := by unfold sanitizeChar; simp [h]
    rw [h2]
    unfold sanitizeChar
    simp [pyLower_of_allowed h, h]
  · have h2 : sanitizeChar c = '_' := by unfold sanitizeChar; simp [h]
    rw [h2]
    decide

/-- C3: the namespace-prefix sanitization used by the merge engine is
total — every character of `sanitizeName s` lies in `[a-z0-9_-]` — and
idempotent: applying it twice equals applying it once. -/
theorem sanitize_total_idempotent (s : String) :
    (∀ c ∈ (sanitizeName s).data, allowedChar c = true) ∧
    sanitizeName (sanitizeName s) = sanitizeName s := by
  constructor
  · intro c hc
    simp only [sanitizeName, List.mem_map] at hc
    obtain ⟨a, _, rfl⟩ := hc
    exact allowedChar_sanitizeChar a
  · unfold sanitizeName
    apply congrArg String.mk
    show (s.data.map sanitizeChar).map sanitizeChar = s.data.map sanitizeChar
    rw [List.map_map]
    exact List.map_congr_left fun a _ => sanitizeChar_idem a

/-- Witness for C3 at the concrete instance name `"A b!"` (sanitized to
`"a_b_"`). -/
theorem sanitize_total_idempotent_witness :
    sanitizeName (sanitizeName "A b!") = sanitizeName "A b!" ∧
    allowedChar 'a' = true :=
  ⟨(sanitize_total_idempotent "A b!").2,
   (sanitize_total_idempotent "A b!").1 'a' (by decide)⟩

/-! ## Lemmas about the merge engine -/

/-- Inserting a fresh key into a dict appends the pair at the end. -/
theorem dictInsert_of_not_mem {α : Type} (d : List (String × α)) (k : String) (v : α)
    (h : k ∉ d.map Prod.fst) : dictInsert d k v = d ++ [(k, v)] := by
  induction d with
  | nil => rfl
  | cons hd tl ih =>
      simp only [List.map_cons, List.mem_cons] at h
      push_neg at h
      unfold dictInsert
      rw [if_neg (fun hk => h.1 (hk.symm))]
      rw [ih h.2]
      rfl

/-- `add_tool` with a name not yet registered appends the tool. -/
theorem addTool_of_not_mem (m : Server) (t : Tool) (h : t.name ∉ toolKeys m) :
    (addTool m t).tools = m.tools ++ [(t.name, t)] :=
  dictInsert_of_not_mem m.tools t.name t h

/-- `add_tool` never touches the prompts dict. -/
theorem addTool_prompts (m : Server) (t : Tool) : (addTool m t).prompts = m.prompts := rfl

/-- `add_prompt` never touches the tools dict. -/
theorem addPrompt_tools (m : Server) (p : Prompt) : (addPrompt m p).tools = m.tools := rfl

/-- The renamed tools dict contributed by one source instance:
key and `name` attribute both become `{prefix}_{originalName}`. -/
def renameTools (pfx : String) (tools : List (String × Tool)) : List (String × Tool) :=
  tools.map fun kv => (pfx ++ "_" ++ kv.1, { kv.2 with name := pfx ++ "_" ++ kv.1 })

/-- Unfolding one step of the tool loop. -/
theorem mergeTools_cons (acc : Server) (pfx : String) (hd : String × Tool)
    (tl : List (String × Tool)) :
    mergeTools acc pfx (hd :: tl)
      = mergeTools (addTool acc { hd.2 with name := pfx ++ "_" ++ hd.1 }) pfx tl := rfl

/-- The tool loop of the merge: when the renamed names are pairwise
distinct and all fresh for the accumulator, the accumulated tools dict
is extended by exactly the renamed tools, in order. -/
theorem mergeTools_tools (tools : List (String × Tool)) (acc : Server) (pfx : String)
    (hfresh : ∀ kv ∈ tools, (pfx ++ "_" ++ kv.1) ∉ toolKeys acc)
    (hnd : (tools.map fun kv => pfx ++ "_" ++ kv.1).Nodup) :
    (mergeTools acc pfx tools).tools = acc.tools ++ renameTools pfx tools := by
  induction tools generalizing acc with
  | nil => simp [mergeTools, renameTools]
  | cons hd tl ih =>
      rw [mergeTools_cons]
      have hfr : (pfx ++ "_" ++ hd.1) ∉ toolKeys acc := hfresh hd (by simp)
      have hstep : (addTool acc { hd.2 with name := pfx ++ "_" ++ hd.1 }).tools
          = acc.tools ++ [(pfx ++ "_" ++ hd.1, { hd.2 with name := pfx ++ "_" ++ hd.1 })] :=
        addTool_of_not_mem acc _ hfr
      have hkeys : toolKeys (addTool acc { hd.2 with name := pfx ++ "_" ++ hd.1 })
          = toolKeys acc ++ [pfx ++ "_" ++ hd.1] := by
        unfold toolKeys
        rw [hstep]
        simp
      simp only [List.map_cons, List.nodup_cons] at hnd
      rw [ih _ ?_ hnd.2, hstep]
      · simp [renameTools]
      · intro kv hkv
        rw [hkeys]
        simp only [List.mem_append, List.mem_singleton]
        push_neg
        refine ⟨hfresh kv (by simp [hkv]), ?_⟩
        intro hcontr
        exact hnd.1 (hcontr ▸ List.mem_map_of_mem (fun kv => pfx ++ "_" ++ kv.1) hkv)

/-- The prompt loop never touches the tools dict. -/
theorem mergePrompts_tools (prompts : List (String × Prompt)) (acc : Server) (pfx : String) :
    (mergePrompts acc pfx prompts).tools = acc.tools := by
  induction prompts generalizing acc with
  | nil => rfl
  | cons hd tl ih => exact (ih _).trans rfl

/-- One successful iteration of the merge loop: a source with at least
one tool is accepted and contributes exactly its renamed tools, provided
they are fresh and pairwise distinct. -/
theorem mergeServer_ok (acc s : Server) (hne : s.tools ≠ [])
    (hfresh : ∀ kv ∈ s.tools, (sanitizeName s.name ++ "_" ++ kv.1) ∉ toolKeys acc)
    (hnd : (s.tools.map fun kv => sanitizeName s.name ++ "_" ++ kv.1).Nodup) :
    ∃ m, mergeServer acc s = .ok m ∧
      m.tools = acc.tools ++ renameTools (sanitizeName s.name) s.tools := by
  refine ⟨mergePrompts (mergeTools acc (sanitizeName s.name) s.tools)
      (sanitizeName s.name) s.prompts, ?_, ?_⟩
  · unfold mergeServer
    rw [if_neg (by simpa using hne)]
  · rw [mergePrompts_tools]
    exact mergeTools_tools s.tools acc _ hfresh hnd

/-- Strings with equal underlying character lists are equal. -/
theorem str_ext {a b : String} (h : a.data = b.data) : a = b := by
  cases a
  cases b
  exact congrArg String.mk h

/-- Appending to a fixed string on the left is injective. -/
theorem strcat_left_injective (p : String) : Function.Injective (fun x => p ++ x) := by
  intro x y h
  apply str_ext
  have h2 := congrArg String.data h
  simp only [String.data_append] at h2
  exact List.append_cancel_left h2

/-- When neither of two strings is a prefix of the other, no extensions
of them past a separator can collide. -/
theorem strcat_ne_of_no_mutual_prefix {p q : String}
    (hp : ¬ p.data <+: q.data) (hq : ¬ q.data <+: p.data) (x y : String) :
    p ++ "_" ++ x ≠ q ++ "_" ++ y := by
  intro h
  have hd := congrArg String.data h
  simp only [String.data_append] at hd
  rw [List.append_assoc, List.append_assoc] at hd
  rcases List.append_eq_append_iff.mp hd with ⟨a, ha, _⟩ | ⟨a, ha, _⟩
  · exact hp ⟨a, ha.symm⟩
  · exact hq ⟨a, ha.symm⟩

/-- The renamed key list of one instance, rewritten as a map over its
original keys. -/
theorem renamed_keys_eq (pfx : String) (tools : List (String × Tool)) :
    (tools.map fun kv => pfx ++ "_" ++ kv.1)
      = (tools.map Prod.fst).map (fun k => pfx ++ "_" ++ k) := by
  rw [List.map_map]
  rfl

/-- Distinct original keys give distinct renamed keys. -/
theorem renamed_keys_nodup (pfx : String) (tools : List (String × Tool))
    (h : (tools.map Prod.fst).Nodup) :
    (tools.map fun kv => pfx ++ "_" ++ kv.1).Nodup := by
  rw [renamed_keys_eq]
  refine h.map ?_
  intro x y hxy
  have : (pfx ++ "_") ++ x = (pfx ++ "_") ++ y := by
    simpa [String.append_assoc] using hxy
  exact strcat_left_injective (pfx ++ "_") this

/-- Claim C1 (amended): merging two instances each exposing at least one
tool yields an aggregate whose tool-name set has cardinality equal to
the sum of the two tool counts, provided neither instance's sanitized
namespace prefix is a string-prefix of the other's (in particular the
prefixes are distinct).  The hypotheses `hk1`/`hk2` are the dict
invariant that each instance's tool names are unique within it. -/
theorem merge_no_collision_of_nonprefix (s1 s2 : Server) (mergedName : String)
    (h1 : s1.tools ≠ []) (h2 : s2.tools ≠ [])
    (hk1 : (s1.tools.map Prod.fst).Nodup) (hk2 : (s2.tools.map Prod.fst).Nodup)
    (hp : ¬ (sanitizeName s1.name).data <+: (sanitizeName s2.name).data)
    (hq : ¬ (sanitizeName s2.name).data <+: (sanitizeName s1.name).data) :
    ∃ m, merge_mcp_servers [s1, s2] mergedName = .ok m ∧
      (m.tools.map Prod.fst).Nodup ∧
      m.tools.length = s1.tools.length + s2.tools.length := by
  have hnd1 := renamed_keys_nodup (sanitizeName s1.name) s1.tools hk1
  have hnd2 := renamed_keys_nodup (sanitizeName s2.name) s2.tools hk2
  set init : Server := { name := mergedName, tools := [], prompts := [] } with hinit
  obtain ⟨m1, hm1, hm1t⟩ := mergeServer_ok init s1 h1 (by simp [hinit, toolKeys]) hnd1
  have hm1keys : toolKeys m1 = s1.tools.map fun kv => sanitizeName s1.name ++ "_" ++ kv.1 := by
    unfold toolKeys
    rw [hm1t]
    simp [hinit, renameTools]
  have hfresh2 : ∀ kv ∈ s2.tools, (sanitizeName s2.name ++ "_" ++ kv.1) ∉ toolKeys m1 := by
    intro kv _ hmem
    rw [hm1keys] at hmem
    obtain ⟨kv', _, hkv'⟩ := List.mem_map.mp hmem
    exact strcat_ne_of_no_mutual_prefix hp hq kv'.1 kv.1 hkv'
  obtain ⟨m2, hm2, hm2t⟩ := mergeServer_ok m1 s2 h2 hfresh2 hnd2
  refine ⟨m2, ?_, ?_, ?_⟩
  · show mergeList init [s1, s2] = .ok m2
    unfold mergeList
    rw [hm1]
    unfold mergeList
    rw [hm2]
    rfl
  · rw [hm2t, hm1t]
    simp only [hinit, List.nil_append, List.map_append]
    refine List.Nodup.append ?_ ?_ ?_
    · show ((renameTools (sanitizeName s1.name) s1.tools).map Prod.fst).Nodup
      unfold renameTools
      rw [List.map_map]
      exact hnd1
    · show ((renameTools (sanitizeName s2.name) s2.tools).map Prod.fst).Nodup
      unfold renameTools
      rw [List.map_map]
      exact hnd2
    · intro a ha1 ha2
      unfold renameTools at ha1 ha2
      rw [List.map_map] at ha1 ha2
      obtain ⟨kv1, _, hkv1⟩ := List.mem_map.mp ha1
      obtain ⟨kv2, _, hkv2⟩ := List.mem_map.mp ha2
      exact strcat_ne_of_no_mutual_prefix hp hq kv1.1 kv2.1 (hkv1.trans hkv2.symm)
  · rw [hm2t, hm1t]
    simp [hinit, renameTools]

/-- Witness for the amended C1: two concrete instances with prefixes
`"alpha"` and `"beta"` merge into two distinct renamed tool names. -/
theorem merge_no_collision_witness :
    ∃ m, merge_mcp_servers
        [{ name := "alpha", tools := [("t", { name := "t", desc := "" })], prompts := [] },
         { name := "beta", tools := [("t", { name := "t", desc := "" })], prompts := [] }]
        "m" = .ok m ∧
      (m.tools.map Prod.fst).Nodup ∧
      m.tools.length =
        ([(("t" : String), ({ name := "t", desc := "" } : Tool))]).length
          + ([(("t" : String), ({ name := "t", desc := "" } : Tool))]).length :=
  merge_no_collision_of_nonprefix
    { name := "alpha", tools := [("t", { name := "t", desc := "" })], prompts := [] }
    { name := "beta", tools := [("t", { name := "t", desc := "" })], prompts := [] }
    "m" (by decide) (by decide) (by decide) (by decide) (by decide) (by decide)

/-- Counterexample to C1 as stated: the display names `"a.b"` and
`"a b"` are distinct, yet both sanitize to the prefix `"a_b"`, so the
two renamed tools collide and the merged aggregate holds one tool, not
two. -/
theorem merge_distinct_names_collision_cex :
    ({ name := "a.b", tools := [("t", { name := "t", desc := "" })], prompts := [] } : Server).name
      ≠ ({ name := "a b", tools := [("t", { name := "t", desc := "" })], prompts := [] } : Server).name ∧
    merge_mcp_servers
        [{ name := "a.b", tools := [("t", { name := "t", desc := "" })], prompts := [] },
         { name := "a b", tools := [("t", { name := "t", desc := "" })], prompts := [] }]
        "m"
      = .ok { name := "m", tools := [("a_b_t", { name := "a_b_t", desc := "" })], prompts := [] } ∧
    (match merge_mcp_servers
        [{ name := "a.b", tools := [("t", { name := "t", desc := "" })], prompts := [] },
         { name := "a b", tools := [("t", { name := "t", desc := "" })], prompts := [] }]
        "m" with
      | .ok m => m.tools.length
      | .error _ => 0) = 1 := by
  refine ⟨by decide, by decide, by decide⟩

/-! ## Fail-fast of the merge on a tool-less instance (C2) -/

/-- The merge loop aborts with `NoAccessibleTools` naming the first
tool-less instance, whatever the accumulator holds. -/
theorem mergeList_error_of_find (servers : List Server) (t : Server)
    (h : servers.find? (fun u => u.tools.isEmpty) = some t) :
    ∀ acc, mergeList acc servers = .error (.noAccessibleTools t.name) := by
  induction servers with
  | nil => simp [List.find?] at h
  | cons s rest ih =>
      intro acc
      rw [List.find?_cons] at h
      cases hsp : s.tools.isEmpty with
      | true =>
          rw [hsp] at h
          cases h
          unfold mergeList mergeServer
          rw [if_pos hsp]
      | false =>
          rw [hsp] at h
          unfold mergeList mergeServer
          rw [if_neg (by simp [hsp])]
          exact ih h _

/-- Claim C2: a merge over a list containing an instance with zero tools
always fails — no aggregate is returned — and the error raised is
`NoAccessibleTools` naming the first tool-less instance of the list,
regardless of the position of the offending instance or of the other
instances. -/
theorem merge_fail_fast_on_toolless (servers : List Server) (mergedName : String)
    (s : Server) (hmem : s ∈ servers) (hempty : s.tools = []) :
    (merge_mcp_servers servers mergedName).isOk = false ∧
    ∀ t, servers.find? (fun u => u.tools.isEmpty) = some t →
      merge_mcp_servers servers mergedName = .error (.noAccessibleTools t.name) := by
  have hsome : (servers.find? (fun u => u.tools.isEmpty)).isSome = true :=
    List.find?_isSome.mpr ⟨s, hmem, by simp [hempty]⟩
  obtain ⟨t, ht⟩ := Option.isSome_iff_exists.mp hsome
  constructor
  · rw [show merge_mcp_servers servers mergedName
        = .error (.noAccessibleTools t.name) from mergeList_error_of_find servers t ht _]
    rfl
  · intro u hu
    exact mergeList_error_of_find servers u hu _

/-- Witness for C2: a healthy instance followed by a tool-less one named
`"e"`; the merge fails naming `"e"`. -/
theorem merge_fail_fast_witness :
    (merge_mcp_servers
        [{ name := "g", tools := [("t", { name := "t", desc := "" })], prompts := [] },
         { name := "e", tools := [], prompts := [] }] "m").isOk = false ∧
    merge_mcp_servers
        [{ name := "g", tools := [("t", { name := "t", desc := "" })], prompts := [] },
         { name := "e", tools := [], prompts := [] }] "m"
      = .error (.noAccessibleTools "e") := by
  have h := merge_fail_fast_on_toolless
    [{ name := "g", tools := [("t", { name := "t", desc := "" })], prompts := [] },
     { name := "e", tools := [], prompts := [] }] "m"
    { name := "e", tools := [], prompts := [] } (by simp) rfl
  exact ⟨h.1, h.2 { name := "e", tools := [], prompts := [] } (by decide)⟩

/-! ## Empty merges and full exclusion (C10) -/

/-- Every element emitted by the dedup helper comes from its input. -/
theorem mem_of_mem_dedupAux (l : List String) :
    ∀ seen x, x ∈ dedupAux seen l → x ∈ l := by
  induction l with
  | nil => intro seen x h; simp [dedupAux] at h
  | cons hd tl ih =>
      intro seen x h
      unfold dedupAux at h
      by_cases hm : hd ∈ seen
      · rw [if_pos hm] at h
        exact List.mem_cons_of_mem hd (ih seen x h)
      · rw [if_neg hm] at h
        rcases List.mem_cons.mp h with h1 | h2
        · exact h1 ▸ List.mem_cons_self hd tl
        · exact List.mem_cons_of_mem hd (ih (hd :: seen) x h2)

/-- `list(set(ids))` only produces ids of the input. -/
theorem mem_of_mem_pyDedup {l : List String} {x : String} (h : x ∈ pyDedup l) : x ∈ l :=
  mem_of_mem_dedupAux l [] x h

/-- Deduplicating a nonempty list yields a nonempty list. -/
theorem pyDedup_ne_nil {l : List String} (h : l ≠ []) : pyDedup l ≠ [] := by
  cases l with
  | nil => exact absurd rfl h
  | cons hd tl =>
      unfold pyDedup dedupAux
      rw [if_neg (List.not_mem_nil hd)]
      exact List.cons_ne_nil hd _

/-- Claim C10: merging the empty list of servers succeeds and returns
an aggregate with zero tools and zero prompts; consequently
`get_merged_mcp_server`, on a nonempty explicit id list every member of
which is excluded, returns that empty aggregate instead of raising. -/
theorem empty_merge_and_full_exclusion_ok
    (lookupApiSet : String → Except SrvError ApiSetArgs)
    (queryIds : String → List String) (build : String → Server)
    (ids excl : List String) (server_name : String)
    (h1 : ids ≠ []) (h2 : ∀ sid ∈ ids, sid ∈ excl) :
    merge_mcp_servers [] server_name
      = .ok { name := server_name, tools := [], prompts := [] } ∧
    get_merged_mcp_server lookupApiSet queryIds build none none (some ids) (some excl)
        none server_name
      = .ok { name := server_name, tools := [], prompts := [] } := by
  refine ⟨rfl, ?_⟩
  unfold get_merged_mcp_server applyApiSet resolveIds
  simp only [truthyStr, Bool.false_eq_true, if_false]
  have htr : truthyList (some ids) = true := by
    simp [truthyList, h1]
  have htr2 : truthyList (some (pyDedup ids)) = true := by
    simp [truthyList, pyDedup_ne_nil h1]
  simp only [htr, if_true, htr2, Bool.not_true, Bool.false_eq_true, if_false,
    Option.getD_some]
  have hfilter : (pyDedup ids).filter (fun sid => !excl.contains sid) = [] := by
    rw [List.filter_eq_nil_iff]
    intro a ha
    simp
    exact h2 a (mem_of_mem_pyDedup ha)
  rw [hfilter]
  rfl

/-- Witness for C10: one id, excluded. -/
theorem empty_merge_and_full_exclusion_witness :
    merge_mcp_servers [] "smartapi_mcp"
      = .ok { name := "smartapi_mcp", tools := [], prompts := [] } ∧
    get_merged_mcp_server (fun s => .error (.unknownApiSet s)) (fun _ => [])
        (fun sid => { name := sid, tools := [], prompts := [] })
        none none (some ["x"]) (some ["x"]) none "smartapi_mcp"
      = .ok { name := "smartapi_mcp", tools := [], prompts := [] } :=
  empty_merge_and_full_exclusion_ok (fun s => .error (.unknownApiSet s)) (fun _ => [])
    (fun sid => { name := sid, tools := [], prompts := [] })
    ["x"] ["x"] "smartapi_mcp" (by decide) (by decide)

/-! ## Exclusion precedence (C4)

Fixtures reproducing the `biothings_all`-style predefined set — a query
plus a default exclusion list — together with a registry answering that
query and a builder producing one tool per id. -/

/-- A predefined-set table in the shape of `biothings_all`: a query and
a default exclusion list (`["y"]`), no id list. -/
def lookupAll : String → Except SrvError ApiSetArgs := fun s =>
  if s = "biothings_all" then
    .ok { smartapi_ids := none, smartapi_q := some "QALL", smartapi_exclude_ids := some ["y"] }
  else .error (.unknownApiSet s)

/-- The registry resolving the set's query to three ids. -/
def queryAll : String → List String := fun q => if q = "QALL" then ["x", "y", "z"] else []

/-- A builder giving every id one tool named `"t"`. -/
def buildFix : String → Server := fun sid =>
  { name := sid, tools := [("t", { name := "t", desc := "" })], prompts := [] }

/-- C4 evaluated at the failing input: the caller explicitly excludes
`"x"` while naming the predefined set whose default exclusion list is
`["y"]`; `get_merged_mcp_server` overwrites the explicit list with the
set's list, so the result contains the tool of the explicitly excluded
id `"x"` and lacks the tool of `"y"` — the opposite of the claimed
precedence (the subtraction itself is applied last, as claimed). -/
theorem api_set_exclusion_overrides_explicit_cex :
    get_merged_mcp_server lookupAll queryAll buildFix none none none (some ["x"])
        (some "biothings_all") "m"
      = .ok { name := "m",
              tools := [("x_t", { name := "x_t", desc := "" }),
                        ("z_t", { name := "z_t", desc := "" })],
              prompts := [] } ∧
    "x_t" ∈ (match get_merged_mcp_server lookupAll queryAll buildFix none none none
        (some ["x"]) (some "biothings_all") "m" with
      | .ok m => toolKeys m
      | .error _ => []) := by
  refine ⟨by decide, by decide⟩

/-! ## The router threshold boundary (C5) -/

/-- Claim C5: with routing enabled, a resolved selection (after
exclusion) of exactly 49 ids takes the progressive-loading path and a
selection of exactly 50 takes the router path. -/
theorem routing_threshold_boundary
    (lookupApiSet : String → Except SrvError ApiSetArgs)
    (queryIds : String → List String) (build : String → Server)
    (ids excl : List String) (server_name : String) (max_context_tools : Nat)
    (h1 : ids ≠ []) :
    ((ids.filter (fun sid => !excl.contains sid)).length = 49 →
      get_smart_mcp_server_with_routing lookupApiSet queryIds build none none (some ids)
          (some excl) none server_name true max_context_tools
        = .ok (.progressive (ids.filter (fun sid => !excl.contains sid))
            server_name max_context_tools)) ∧
    ((ids.filter (fun sid => !excl.contains sid)).length = 50 →
      get_smart_mcp_server_with_routing lookupApiSet queryIds build none none (some ids)
          (some excl) none server_name true max_context_tools
        = .ok (.router (ids.filter (fun sid => !excl.contains sid))
            server_name max_context_tools)) := by
  have htr : truthyList (some ids) = true := by simp [truthyList, h1]
  constructor
  · intro hlen
    have h50 : (true && decide (50 ≤ (ids.filter (fun sid => !excl.contains sid)).length))
        = false := by
      rw [hlen]
      decide
    unfold get_smart_mcp_server_with_routing applyApiSet resolveIds
    simp only [truthyStr, Bool.false_eq_true, if_false, htr, Bool.not_true,
      Option.getD_some]
    rw [if_neg (fun hc => Bool.false_ne_true (h50 ▸ hc)), if_pos (by rw [hlen]; omega)]
  · intro hlen
    have h50 : (true && decide (50 ≤ (ids.filter (fun sid => !excl.contains sid)).length))
        = true := by
      rw [hlen]
      decide
    unfold get_smart_mcp_server_with_routing applyApiSet resolveIds
    simp only [truthyStr, Bool.false_eq_true, if_false, htr, Bool.not_true,
      Option.getD_some]
    rw [if_pos h50]

/-- Witness for C5 at 49 and 50 concrete ids (no exclusions). -/
theorem routing_threshold_boundary_witness :
    get_smart_mcp_server_with_routing lookupAll queryAll buildFix none none
        (some (List.replicate 49 "a")) (some []) none "s" true 50
      = .ok (.progressive ((List.replicate 49 "a").filter
          (fun sid => !([] : List String).contains sid)) "s" 50) ∧
    get_smart_mcp_server_with_routing lookupAll queryAll buildFix none none
        (some (List.replicate 50 "a")) (some []) none "s" true 50
      = .ok (.router ((List.replicate 50 "a").filter
          (fun sid => !([] : List String).contains sid)) "s" 50) :=
  ⟨(routing_threshold_boundary lookupAll queryAll buildFix (List.replicate 49 "a") []
      "s" 50 (by decide)).1 (by decide),
   (routing_threshold_boundary lookupAll queryAll buildFix (List.replicate 50 "a") []
      "s" 50 (by decide)).2 (by decide)⟩

/-! ## Per-id failure tolerance and capacity of the batch loader (C6, C7) -/

/-- Claim C6: inside a nonempty batch, every per-id build failure is
recorded (logged) with its id and excluded from the merge; the merge is
applied to exactly the successfully built subset, and when that subset
is empty the invocation returns the `"No tools loaded."` report instead
of raising.  The router and progressive `load_tools_batch` closures are
both `load_batch_core` applied to their batch selection. -/
theorem batch_per_id_failures_tolerated (build : String → Except SrvError Server)
    (serverName : String) (batchIds : List String) (maxTools : Nat)
    (allIds apiIds : List String) (hne : batchIds ≠ []) :
    (load_batch_core build serverName batchIds).2 = failedIds build batchIds ∧
    (∀ i ∈ batchIds, (build i).toOption = none →
      i ∈ (load_batch_core build serverName batchIds).2) ∧
    (successfulServers build batchIds = [] →
      load_batch_core build serverName batchIds
        = (.ok .noneLoaded, failedIds build batchIds)) ∧
    (successfulServers build batchIds ≠ [] →
      load_batch_core build serverName batchIds
        = ((match merge_mcp_servers (successfulServers build batchIds)
              (serverName ++ "-batch") with
            | .error e => Except.error e
            | .ok m => Except.ok (.loaded (successfulServers build batchIds).length m.tools)),
           failedIds build batchIds)) ∧
    load_tools_batch_router build maxTools serverName apiIds
      = load_batch_core build serverName (routerBatchIds maxTools apiIds) ∧
    load_tools_batch_progressive build maxTools serverName allIds apiIds
      = load_batch_core build serverName (progressiveBatchIds maxTools allIds apiIds) := by
  have hbe : batchIds.isEmpty = false := by simpa using hne
  refine ⟨?_, ?_, ?_, ?_, rfl, rfl⟩
  · unfold load_batch_core
    rw [hbe]
    simp only [Bool.false_eq_true, if_false]
    by_cases hs : (successfulServers build batchIds).isEmpty = true
    · rw [if_pos hs]
    · rw [if_neg hs]
      cases merge_mcp_servers (successfulServers build batchIds) (serverName ++ "-batch") <;> rfl
  · intro i hi hfail
    unfold load_batch_core
    rw [hbe]
    simp only [Bool.false_eq_true, if_false]
    have hmem : i ∈ failedIds build batchIds := by
      unfold failedIds
      refine List.mem_filter.mpr ⟨hi, ?_⟩
      rw [hfail]
      rfl
    by_cases hs : (successfulServers build batchIds).isEmpty = true
    · rw [if_pos hs]
      exact hmem
    · rw [if_neg hs]
      cases merge_mcp_servers (successfulServers build batchIds) (serverName ++ "-batch") <;>
        exact hmem
  · intro hempty
    unfold load_batch_core
    rw [hbe]
    simp only [Bool.false_eq_true, if_false]
    rw [if_pos (by simp [hempty])]
  · intro hnonempty
    unfold load_batch_core
    rw [hbe]
    simp only [Bool.false_eq_true, if_false]
    rw [if_neg (by simpa using hnonempty)]
    cases merge_mcp_servers (successfulServers build batchIds) (serverName ++ "-batch") <;> rfl

/-- Witness for C6: a batch of one id whose build raises; the report is
`"No tools loaded."` and the id is logged. -/
theorem batch_per_id_failures_witness :
    load_batch_core (fun _ => .error .noIds) "s" ["a"]
      = (.ok .noneLoaded, ["a"]) ∧
    "a" ∈ (load_batch_core (fun _ => .error .noIds) "s" ["a"]).2 := by
  have h := batch_per_id_failures_tolerated (fun _ => .error .noIds) "s" ["a"] 1 [] []
    (by decide)
  refine ⟨?_, ?_⟩
  · have h3 := h.2.2.1 (by decide)
    rw [h3]
    decide
  · exact h.2.1 "a" (by decide) (by decide)

/-- Claim C7: a batch-loader created with capacity `maxTools` selects at
most `maxTools` batch ids, builds at most `maxTools` servers, and every
successful invocation reports at most `maxTools` loaded APIs — for both
the router and the progressive variant, whatever candidate ids are
passed. -/
theorem batch_capacity_bound (build : String → Except SrvError Server)
    (maxTools : Nat) (serverName : String) (allIds apiIds : List String) :
    (routerBatchIds maxTools apiIds).length ≤ maxTools ∧
    (progressiveBatchIds maxTools allIds apiIds).length ≤ maxTools ∧
    (successfulServers build (routerBatchIds maxTools apiIds)).length ≤ maxTools ∧
    (successfulServers build (progressiveBatchIds maxTools allIds apiIds)).length
      ≤ maxTools ∧
    loadedCount (load_tools_batch_router build maxTools serverName apiIds) ≤ maxTools ∧
    loadedCount (load_tools_batch_progressive build maxTools serverName allIds apiIds)
      ≤ maxTools := by
  have hr : (routerBatchIds maxTools apiIds).length ≤ maxTools :=
    List.length_take_le maxTools apiIds
  have hp : (progressiveBatchIds maxTools allIds apiIds).length ≤ maxTools := by
    unfold progressiveBatchIds
    by_cases h : apiIds.isEmpty = true
    · simp only [h, Bool.not_true, Bool.false_eq_true, if_false]
      exact List.length_take_le maxTools allIds
    · simp only [eq_false_of_ne_true h, Bool.not_false, if_true]
      exact List.length_take_le maxTools apiIds
  have hsucc : ∀ l : List String, (successfulServers build l).length ≤ l.length :=
    fun l => List.length_filterMap_le _ l
  have hcore : ∀ l : List String,
      loadedCount (load_batch_core build serverName l) ≤ l.length := by
    intro l
    unfold load_batch_core
    by_cases h0 : l.isEmpty = true
    · rw [if_pos h0]
      exact Nat.zero_le _
    · rw [if_neg h0]
      by_cases hs : (successfulServers build l).isEmpty = true
      · rw [if_pos hs]
        exact Nat.zero_le _
      · rw [if_neg hs]
        cases hmrg : merge_mcp_servers (successfulServers build l) (serverName ++ "-batch") with
        | error e => exact Nat.zero_le _
        | ok m =>
            show loadedCount (.ok (.loaded (successfulServers build l).length m.tools), _)
              ≤ l.length
            exact hsucc l
  refine ⟨hr, hp, le_trans (hsucc _) hr, le_trans (hsucc _) hp, ?_, ?_⟩
  · exact le_trans (hcore (routerBatchIds maxTools apiIds)) hr
  · exact le_trans (hcore (progressiveBatchIds maxTools allIds apiIds)) hp

/-! ## The registry client swallows network failures (C8) -/

/-- A network interaction failing with a transport error. -/
def failingTransport : String → Nat → Except HttpFailure QueryResponse :=
  fun _ _ => .error (.transport "connection reset")

/-- A network interaction failing with an HTTP 500 status
(`response.raise_for_status()`). -/
def failingHttp : String → Nat → Except HttpFailure QueryResponse :=
  fun _ _ => .error (.httpStatus 500)

/-- Counterexample to C8 as stated: on a transport failure,
`search_apis` does not raise — it returns the empty list (`return []`
inside the `except` handler). -/
theorem search_apis_returns_empty_cex :
    search_apis true failingTransport "gene" 10 = .ok [] ∧
    (search_apis true failingTransport "gene" 10).isOk = true :=
  ⟨rfl, rfl⟩

/-- Claim C8 (amended): when the underlying network call fails with any
transport or HTTP error, `search_apis` catches the exception, logs it,
and returns the empty list to its caller — it neither retries nor
raises. -/
theorem search_apis_swallows_network_errors
    (network : String → Nat → Except HttpFailure QueryResponse)
    (query : String) (limit : Nat) (e : HttpFailure)
    (h : network query limit = .error e) :
    search_apis true network query limit = .ok [] := by
  unfold search_apis
  rw [h]
  rfl

/-- Witness for the amended C8 at an HTTP 500 failure. -/
theorem search_apis_swallows_network_errors_witness :
    failingHttp "q" 5 = .error (.httpStatus 500) ∧
    search_apis true failingHttp "q" 5 = .ok [] :=
  ⟨rfl, search_apis_swallows_network_errors failingHttp "q" 5 (.httpStatus 500) rfl⟩

/-! ## Zero usable descriptions: index failure and fallback (C9) -/

/-- When every spec load fails, the description loop leaves the
accumulator untouched. -/
theorem build_api_descriptions_nil (load : String → Option ApiSpecInfo)
    (smartapiIds : List String) (h : ∀ i ∈ smartapiIds, load i = none) :
    build_api_descriptions load smartapiIds = [] := by
  have haux : ∀ (l : List String), (∀ i ∈ l, load i = none) →
      ∀ acc : List (String × String),
        (l.foldl (fun descriptions api_id =>
          match load api_id with
          | none => descriptions
          | some info =>
              let combined := combinedDescription info
              dictInsert descriptions api_id
                (if combined.isEmpty then api_id else combined)) acc) = acc := by
    intro l
    induction l with
    | nil => intro _ acc; rfl
    | cons hd tl ih =>
        intro hl acc
        have hhd : load hd = none := hl hd (by simp)
        rw [List.foldl_cons]
        rw [show (match load hd with
            | none => acc
            | some info =>
                let combined := combinedDescription info
                dictInsert acc hd
                  (if combined.isEmpty then hd else combined)) = acc by rw [hhd]]
        exact ih (fun i hi => hl i (List.mem_cons_of_mem hd hi)) acc
  exact haux smartapiIds h []

/-- Claim C9: when the embedding path is selected (dependencies
available) but produces zero usable API descriptions — here, every spec
load fails — the index builder fails with the
`"No API descriptions available for semantic search."` error, and
`smart_search_smartapi` catches that failure and answers with category
routing instead of propagating it. -/
theorem semantic_empty_descriptions_fallback (cachedIndexOk : Bool)
    (load : String → Option ApiSpecInfo)
    (semanticRank : List String → String → Nat → List String)
    (query : String) (smartapiIds : List String) (limit : Nat)
    (hload : ∀ i ∈ smartapiIds, load i = none) :
    ensure_semantic_index true none cachedIndexOk load smartapiIds
      = .error .noDescriptions ∧
    smart_search_smartapi true none cachedIndexOk load semanticRank query smartapiIds limit
      = categoryFallback load query smartapiIds ∧
    (smart_search_smartapi true none cachedIndexOk load semanticRank query smartapiIds
        limit).method = "category_routing" := by
  have hensure : ensure_semantic_index true none cachedIndexOk load smartapiIds
      = .error .noDescriptions := by
    unfold ensure_semantic_index
    rw [build_api_descriptions_nil load smartapiIds hload]
    rfl
  have hsearch : smart_search_smartapi true none cachedIndexOk load semanticRank query
      smartapiIds limit = categoryFallback load query smartapiIds := by
    unfold smart_search_smartapi
    rw [hensure]
    rfl
  exact ⟨hensure, hsearch, by rw [hsearch]; rfl⟩

/-- Witness for C9: one id whose spec load fails and a query matching no
category; the search answers with empty category routing rather than an
error. -/
theorem semantic_empty_descriptions_witness :
    ensure_semantic_index true none false (fun _ => none) ["a"]
      = .error .noDescriptions ∧
    smart_search_smartapi true none false (fun _ => none) (fun _ _ _ => []) "q" ["a"] 5
      = { method := "category_routing", results := .categories [], totalFound := 0 } := by
  have h := semantic_empty_descriptions_fallback false (fun _ => none) (fun _ _ _ => [])
    "q" ["a"] 5 (by intro i _; rfl)
  refine ⟨h.1, ?_⟩
  rw [h.2.1]
  decide

end SmartapiMcp
